/-
Verification of the Coverage Resolution and Claims Adjudication engine of the
claims-platform repository.  The Python source under
`backend/policy-management-service` and `backend/basic-claims-service` is
shallowly embedded below: monetary values become rationals, dates become
integers (a day count), SQL rows become Lean structures, table queries become
list operations, and the ambient wall-clock date (`date.today()` /
`datetime.now()`) is threaded through explicitly as a `today` parameter.
-/
import Mathlib

/-- Dates are modelled as integers (day numbers); only their linear order
matters to the engine. -/
abbrev Date := Int

/-! ## Python rounding

`round(x, 2)` in Python rounds to the nearest multiple of `1/100`, resolving
ties to the even hundredth (round-half-even).  `pyRoundInt` models `round` to
an integer on an exact rational value, and `round2` models `round(x, 2)`. -/

/-- Model of Python `round(x)` on an exact rational: nearest integer, ties to
the even integer. -/
def pyRoundInt (x : ℚ) : ℤ :=
  let f : ℤ := ⌊x⌋
  if x - f < 1/2 then f
  else if 1/2 < x - f then f + 1
  else if f % 2 = 0 then f else f + 1

/-- Model of Python `round(x, 2)`: round to the nearest hundredth, ties to the
even hundredth. -/
def round2 (x : ℚ) : ℚ := (pyRoundInt (x * 100) : ℚ) / 100

/-! ## Data model (`models/policy.py`) -/

/-- Row of `insurance_card_types` (`InsuranceCardType`).  Only the fields the
engine reads are kept. -/
structure InsuranceCardType where
  id : String
  code : String
  coverage_percentage : ℚ
deriving DecidableEq, Repr

/-- Row of `insurance_cards` (`InsuranceCard`). -/
structure InsuranceCard where
  id : String
  card_number : String
  card_type_id : String
  valid_from : Date
  valid_to : Date
  status : String
deriving DecidableEq, Repr

/-- Row of `healthcare_facilities` (`HealthcareFacility`). -/
structure HealthcareFacility where
  id : String
  code : String
  level : String
  is_active : Bool
deriving DecidableEq, Repr

/-- Row of `coverage_policies` (`CoveragePolicy`).  `max_amount` and
`effective_to` are nullable columns, `deductible` is nullable with default 0. -/
structure CoveragePolicy where
  id : String
  name : String
  policy_type : String
  card_type_id : String
  facility_level : String
  coverage_percentage : ℚ
  max_amount : Option ℚ
  deductible : Option ℚ
  effective_from : Date
  effective_to : Option Date
  is_active : Bool
deriving DecidableEq, Repr

/-- `InsuranceCard.is_valid(check_date=None)`: the `None` default becomes
`date.today()`, passed here as `today`. -/
def InsuranceCard.is_valid (c : InsuranceCard) (check_date : Option Date)
    (today : Date) : Bool :=
  let d := check_date.getD today
  c.status == "active" && decide (c.valid_from ≤ d) && decide (d ≤ c.valid_to)

/-- `CoveragePolicy.is_applicable(check_date=None)`: guard sequence from the
source, with the `None` default becoming `today`. -/
def CoveragePolicy.is_applicable (p : CoveragePolicy) (check_date : Option Date)
    (today : Date) : Bool :=
  let d := check_date.getD today
  if p.is_active = false then false
  else if d < p.effective_from then false
  else
    match p.effective_to with
    | some e => if e < d then false else true
    | none => true

/-- `CoveragePolicy.calculate_coverage(total_amount)`.  The applicability
re-check calls `is_applicable()` with no argument, hence at `today`.  The
deductible is read as `float(self.deductible or 0)` and the cap is guarded by
Python truthiness (`if self.max_amount:`), so a cap of exactly 0 is skipped. -/
def CoveragePolicy.calculate_coverage (p : CoveragePolicy) (today : Date)
    (total_amount : ℚ) : ℚ :=
  if p.is_applicable none today = false then 0
  else
    let afterDed : ℚ := max 0 (total_amount - (p.deductible.getD 0))
    let pct : ℚ := afterDed * (p.coverage_percentage / 100)
    let capped : ℚ :=
      match p.max_amount with
      | some m => if m = 0 then pct else min pct m
      | none => pct
    round2 capped

/-- Filtering predicate of `CoveragePolicy.find_applicable_policies`: equality
filters plus the effective-window conditions (`effective_to IS NULL OR
effective_to >= check_date`). -/
def applicableFilter (ct pt fl : String) (d : Date) (p : CoveragePolicy) : Bool :=
  p.card_type_id == ct && p.policy_type == pt && p.facility_level == fl &&
    p.is_active && decide (p.effective_from ≤ d) &&
    (match p.effective_to with
     | some e => decide (d ≤ e)
     | none => true)

/-- `CoveragePolicy.find_applicable_policies(card_type_id, policy_type,
facility_level, check_date=None)`: the table query becomes a filter over the
list of rows; the `None` default becomes `today`. -/
def CoveragePolicy.find_applicable_policies (table : List CoveragePolicy)
    (ct pt fl : String) (check_date : Option Date) (today : Date) :
    List CoveragePolicy :=
  let d := check_date.getD today
  table.filter (applicableFilter ct pt fl d)

/-! ## Best-policy selection (`routes/validation.py`, `routes/policies.py`)

Both routes build a list of per-policy coverage calculations and pick
`max(coverage_calculations, key=lambda x: x['covered_amount'])`.  Python's
`max` with a key keeps the first element of the list attaining the maximum
(later elements replace the current best only when strictly greater). -/

/-- One entry of `coverage_calculations` as built in both routes. -/
structure CoverageCalc where
  policy_id : String
  covered_amount : ℚ
  patient_payment : ℚ
deriving DecidableEq, Repr

/-- Python `max(cur :: rest, key=key)`: a later element replaces the current
best only when its key is strictly greater. -/
def pymaxBy {α : Type} (key : α → ℚ) : α → List α → α
  | cur, [] => cur
  | cur, x :: xs => pymaxBy key (if key cur < key x then x else cur) xs

/-- The `coverage_calculations` list: one calculation per applicable policy,
with `patient_payment = total_amount - covered_amount`. -/
def coverageCalcs (pols : List CoveragePolicy) (today : Date) (amt : ℚ) :
    List CoverageCalc :=
  pols.map fun p =>
    { policy_id := p.id
      covered_amount := p.calculate_coverage today amt
      patient_payment := amt - p.calculate_coverage today amt }

/-- The best-policy selection of both routes: `none` exactly when the
candidate list is empty (the routes guard that case separately). -/
def selectBest (pols : List CoveragePolicy) (today : Date) (amt : ℚ) :
    Option CoverageCalc :=
  match coverageCalcs pols today amt with
  | [] => none
  | c :: cs => some (pymaxBy (fun x => x.covered_amount) c cs)

/-! ## The two HTTP routes, with an explicit log of repository reads

Each route returns its outcome together with the list of repository lookups
it performed, in order, so that claims about "rejected before any lookup"
can be stated. -/

/-- A repository read performed by a route. -/
inductive LookupEvent
  | cardLookup
  | facilityLookup
  | policyLookup
  | cardTypeLookup
deriving DecidableEq, Repr

/-- Error outcomes of the two routes. -/
inductive RouteError
  | validationError
  | cardNotFound
  | cardInvalid
  | facilityInvalid
  | noApplicablePolicy
  | missingFields
  | cardTypeNotFound
  | invalidAmount
deriving DecidableEq, Repr

/-- Body of a `POST /policy` validation request.  `total_amount = none`
models a value the `Float` field fails to parse (non-numeric);
`service_date = none` an unparseable date. -/
structure ValidationRequest where
  card_number : String
  facility_code : String
  policy_type : String
  total_amount : Option ℚ
  service_date : Option Date
deriving DecidableEq, Repr

/-- The database tables the routes read. -/
structure Repo where
  cards : List InsuranceCard
  facilities : List HealthcareFacility
  card_types : List InsuranceCardType
  policies : List CoveragePolicy
deriving Repr

/-- `InsuranceCard.find_by_card_number`. -/
def findCardByNumber (repo : Repo) (n : String) : Option InsuranceCard :=
  repo.cards.find? (fun c => c.card_number == n)

/-- `HealthcareFacility.find_by_code`. -/
def findFacilityByCode (repo : Repo) (c : String) : Option HealthcareFacility :=
  repo.facilities.find? (fun f => f.code == c)

/-- `InsuranceCardType.find_by_code`. -/
def findCardTypeByCode (repo : Repo) (c : String) : Option InsuranceCardType :=
  repo.card_types.find? (fun t => t.code == c)

/-- Successful payload of the validation route: the chosen best policy and
the calculations for all applicable policies. -/
structure ValidationSuccess where
  best : CoverageCalc
  all_policies : List CoverageCalc
deriving DecidableEq, Repr

/-- `validate_policy` (`routes/validation.py`): schema validation
(card-number length 15, `total_amount > 0`, parseable date) happens before
any lookup; then card, facility and policy lookups in order; coverage is
computed per applicable policy and the best one chosen by Python `max`. -/
def validate_policy (repo : Repo) (req : ValidationRequest) (today : Date) :
    Except RouteError ValidationSuccess × List LookupEvent :=
  match req.total_amount, req.service_date with
  | some amt, some service_date =>
    if req.card_number.length ≠ 15 ∨ ¬ (0 < amt) then
      (.error .validationError, [])
    else
      match findCardByNumber repo req.card_number with
      | none => (.error .cardNotFound, [.cardLookup])
      | some card =>
        if card.is_valid (some service_date) today = false then
          (.error .cardInvalid, [.cardLookup])
        else
          match findFacilityByCode repo req.facility_code with
          | none => (.error .facilityInvalid, [.cardLookup, .facilityLookup])
          | some facility =>
            if facility.is_active = false then
              (.error .facilityInvalid, [.cardLookup, .facilityLookup])
            else
              let pols := CoveragePolicy.find_applicable_policies repo.policies
                card.card_type_id req.policy_type facility.level
                (some service_date) today
              match selectBest pols today amt with
              | none =>
                (.error .noApplicablePolicy,
                 [.cardLookup, .facilityLookup, .policyLookup])
              | some best =>
                (.ok { best := best, all_policies := coverageCalcs pols today amt },
                 [.cardLookup, .facilityLookup, .policyLookup])
  | _, _ => (.error .validationError, [])

/-- Body of a `POST /calculate-coverage` request.  A missing JSON key is
modelled by the caller passing Python's `data.get` default (`some 0` for
`total_amount`, `none` for the string fields); `total_amount = none` models a
present value that `float()` rejects. -/
structure CalcRequest where
  card_type_code : Option String
  policy_type : Option String
  facility_level : Option String
  total_amount : Option ℚ
deriving DecidableEq, Repr

/-- Python falsiness of `data.get(...)` for a string field: `None` and the
empty string are falsy in the `all([...])` guard. -/
def pyFalsyStr : Option String → Bool
  | none => true
  | some s => s == ""

/-- `calculate_coverage` route (`routes/policies.py`): the `float()`
conversion runs first (a non-numeric value raises before any lookup, caught
as `invalid_amount`), then the missing-fields guard, then the card-type
lookup and the policy query.  No positivity check is made on the amount, and
`find_applicable_policies` is called without a date (hence at `today`). -/
def calculate_coverage_route (repo : Repo) (req : CalcRequest) (today : Date) :
    Except RouteError ValidationSuccess × List LookupEvent :=
  match req.total_amount with
  | none => (.error .invalidAmount, [])
  | some amt =>
    if pyFalsyStr req.card_type_code ∨ pyFalsyStr req.policy_type ∨
        pyFalsyStr req.facility_level then
      (.error .missingFields, [])
    else
      match findCardTypeByCode repo (req.card_type_code.getD "") with
      | none => (.error .cardTypeNotFound, [.cardTypeLookup])
      | some ct =>
        let pols := CoveragePolicy.find_applicable_policies repo.policies
          ct.id (req.policy_type.getD "") (req.facility_level.getD "") none today
        match selectBest pols today amt with
        | none => (.error .noApplicablePolicy, [.cardTypeLookup, .policyLookup])
        | some best =>
          (.ok { best := best, all_policies := coverageCalcs pols today amt },
           [.cardTypeLookup, .policyLookup])

/-! ## Claim numbers (`basic-claims-service/models/claim.py`)

`_generate_claim_number` builds the prefix `f"BHYT{now.year}{now.month:02d}"`,
scans the `claims` table for the largest claim number with that prefix
(`LIKE` filter plus descending sort), and appends
`f"{last+1:06d}"` (or `000001` when none exists). -/

/-- Decimal string of a natural number, as Python `str`/`format` renders it. -/
def decStr (n : Nat) : String :=
  String.mk (if n = 0 then ['0'] else (Nat.digits 10 n).reverse.map Nat.digitChar)

/-- Zero-pad on the left to width `k`, as Python `f"{n:0kd}"` does for the
decimal string of a natural number. -/
def zfill (k : Nat) (s : String) : String :=
  String.mk (List.replicate (k - s.length) '0') ++ s

/-- `f"BHYT{now.year}{now.month:02d}"`. -/
def monthKeyPrefix (year month : Nat) : String :=
  "BHYT" ++ decStr year ++ zfill 2 (decStr month)

/-- SQL `claim_number LIKE 'pre%'`. -/
def likeMatches (pre s : String) : Bool :=
  pre.data.isPrefixOf s.data

/-- Lexicographic strict comparison on character lists; the order SQL uses on
the `claim_number` strings. -/
def listLtB : List Char → List Char → Bool
  | [], [] => false
  | [], _ :: _ => true
  | _ :: _, [] => false
  | a :: as, b :: bs => if a < b then true else if b < a then false else listLtB as bs

/-- One step of the running string maximum. -/
def strMaxStep (acc : Option String) (s : String) : Option String :=
  match acc with
  | none => some s
  | some m => if listLtB m.data s.data then some s else some m

/-- The maximum of a list of strings under the lexicographic string order, as
`ORDER BY claim_number DESC ... first()` yields it. -/
def strListMax (l : List String) : Option String :=
  l.foldl strMaxStep none

/-- Python `int(s[-6:])` on a digit string: parse the last six characters. -/
def lastSixNat (s : String) : Nat :=
  (s.data.drop (s.data.length - 6)).foldl (fun a c => a * 10 + (c.toNat - 48)) 0

/-- `Claim._generate_claim_number`, over the list of claim numbers already in
the table and the processing date's year and month. -/
def generate_claim_number (existing : List String) (year month : Nat) : String :=
  let pre := monthKeyPrefix year month
  match strListMax (existing.filter (likeMatches pre)) with
  | some latest => pre ++ zfill 6 (decStr (lastSixNat latest + 1))
  | none => pre ++ zfill 6 (decStr 1)

/-- The claim-number format: month prefix followed by the zero-padded
sequence number. -/
def mkClaimNumber (year month seq : Nat) : String :=
  monthKeyPrefix year month ++ zfill 6 (decStr seq)

/-! ## Claim construction (`Claim.__init__`) -/

/-- The keyword arguments of `Claim.__init__` that the constructor logic
inspects; all others are stored verbatim. -/
structure ClaimKwargs where
  visit_type : Option String
  status : Option String
  claim_number : Option String
deriving DecidableEq, Repr

/-- The fields of a constructed claim row the claims are about. -/
structure ClaimRecord where
  claim_number : String
  visit_type : Option String
  status : String
deriving DecidableEq, Repr

/-- `['inpatient', 'outpatient', 'emergency']`. -/
def validVisitTypes : List String := ["inpatient", "outpatient", "emergency"]

/-- `['submitted', 'reviewing', 'approved', 'rejected', 'paid']`. -/
def validClaimStatuses : List String :=
  ["submitted", "reviewing", "approved", "rejected", "paid"]

/-- `Claim.__init__`: validates `visit_type` and `status` against the two
allow-lists, generates the claim number when none is supplied, and otherwise
stores the keyword arguments; the column default `'submitted'` applies when
no status is supplied. -/
def Claim.init (kw : ClaimKwargs) (existing : List String) (year month : Nat) :
    Except String ClaimRecord :=
  if kw.visit_type.any (fun v => !(validVisitTypes.contains v)) then
    .error "invalid visit type"
  else if kw.status.any (fun s => !(validClaimStatuses.contains s)) then
    .error "invalid status"
  else
    .ok { claim_number :=
            match kw.claim_number with
            | some c => c
            | none => generate_claim_number existing year month
          visit_type := kw.visit_type
          status := kw.status.getD "submitted" }

/-! ## Spec-side definitions

Definitions written from the specification's words, to be compared with the
code-derived definitions above. -/

/-- Modelled from the spec text of the coverage formula as claimed: deductible
floored at zero, then percentage, then a cap applied whenever `max_amount` is
set — with no rounding step. -/
def claimedCoverageNoRound (p : CoveragePolicy) (amt : ℚ) : ℚ :=
  let afterDeductible := max 0 (amt - p.deductible.getD 0)
  let covered := afterDeductible * (p.coverage_percentage / 100)
  match p.max_amount with
  | some m => min covered m
  | none => covered

/-- The pre-rounding value the code computes: deductible, percentage, then
the truthiness-guarded cap, before `round(_, 2)`. -/
def rawCoverage (p : CoveragePolicy) (amt : ℚ) : ℚ :=
  let afterDed := max 0 (amt - p.deductible.getD 0)
  let pct := afterDed * (p.coverage_percentage / 100)
  match p.max_amount with
  | some m => if m = 0 then pct else min pct m
  | none => pct

/-- Modelled from the spec: "standard half-up rounding" to 2 decimal places,
a tie (third decimal digit 5) rounding away from zero. -/
def roundHalfUp2 (x : ℚ) : ℚ :=
  let c := x * 100
  let f : ℤ := ⌊c⌋
  if c - f < 1/2 then (f : ℚ) / 100
  else if 1/2 < c - f then ((f : ℚ) + 1) / 100
  else if 0 ≤ c then ((f : ℚ) + 1) / 100 else (f : ℚ) / 100

/-- The sequence number the spec attributes to the generator, over the
sequence numbers already issued this month: 1 on an empty month, otherwise
one more than the maximum. -/
def newSeqSpec (seqs : List Nat) : Nat :=
  match seqs with
  | [] => 1
  | _ => seqs.foldl Nat.max 0 + 1

/-! ## Digit-list helpers for the claim-number proofs -/

/-- Value of a big-endian digit list. -/
def dval (l : List Nat) : Nat :=
  l.foldl (fun a d => a * 10 + d) 0

/-- The six-digit big-endian digit list of `n < 10^6`: leading zeros followed
by the decimal digits. -/
def sixDigits (n : Nat) : List Nat :=
  List.replicate (6 - (Nat.digits 10 n).length) 0 ++ (Nat.digits 10 n).reverse

/-! ## Concrete instances used in counterexamples and witnesses -/

/-- A 100%-coverage policy with zero deductible, no cap, active on an
open-ended window. -/
def pFull : CoveragePolicy :=
  { id := "P-full", name := "full coverage", policy_type := "outpatient",
    card_type_id := "CT1", facility_level := "district",
    coverage_percentage := 100, max_amount := none, deductible := some 0,
    effective_from := 0, effective_to := none, is_active := true }

/-- The spec's deductible example: deductible 100000, 80% coverage. -/
def pDeduct : CoveragePolicy :=
  { id := "P-deduct", name := "deductible example", policy_type := "outpatient",
    card_type_id := "CT1", facility_level := "district",
    coverage_percentage := 80, max_amount := none, deductible := some 100000,
    effective_from := 0, effective_to := none, is_active := true }

/-- The spec's cap example: 100% coverage capped at 500000. -/
def pCap : CoveragePolicy :=
  { id := "P-cap", name := "cap example", policy_type := "outpatient",
    card_type_id := "CT1", facility_level := "district",
    coverage_percentage := 100, max_amount := some 500000, deductible := some 0,
    effective_from := 0, effective_to := none, is_active := true }

/-- An 80% policy whose `max_amount` column holds the value 0. -/
def pZeroCap : CoveragePolicy :=
  { id := "P-zerocap", name := "zero cap", policy_type := "outpatient",
    card_type_id := "CT1", facility_level := "district",
    coverage_percentage := 80, max_amount := some 0, deductible := some 0,
    effective_from := 0, effective_to := none, is_active := true }

/-- Tied-coverage candidate listed first, with the larger identifier. -/
def pTieB : CoveragePolicy :=
  { id := "B", name := "tie B", policy_type := "outpatient",
    card_type_id := "CT1", facility_level := "district",
    coverage_percentage := 80, max_amount := none, deductible := some 0,
    effective_from := 0, effective_to := none, is_active := true }

/-- Tied-coverage candidate listed second, with the smaller identifier. -/
def pTieA : CoveragePolicy :=
  { id := "A", name := "tie A", policy_type := "outpatient",
    card_type_id := "CT1", facility_level := "district",
    coverage_percentage := 80, max_amount := none, deductible := some 0,
    effective_from := 0, effective_to := none, is_active := true }

/-- A policy already expired by day 10 (`effective_to = 5`). -/
def pExpired : CoveragePolicy :=
  { id := "PE", name := "expired", policy_type := "outpatient",
    card_type_id := "CT1", facility_level := "district",
    coverage_percentage := 80, max_amount := none, deductible := some 0,
    effective_from := 0, effective_to := some 5, is_active := true }

/-- An active card valid on days 0 through 100. -/
def cardMain : InsuranceCard :=
  { id := "IC1", card_number := "123456789012345", card_type_id := "CT1",
    valid_from := 0, valid_to := 100, status := "active" }

/-- An active district-level facility. -/
def facDistrict : HealthcareFacility :=
  { id := "F1", code := "FAC01", level := "district", is_active := true }

/-- A policy effective on days 0 through 10 only. -/
def polWindow : CoveragePolicy :=
  { id := "PW", name := "window", policy_type := "outpatient",
    card_type_id := "CT1", facility_level := "district",
    coverage_percentage := 80, max_amount := none, deductible := some 0,
    effective_from := 0, effective_to := some 10, is_active := true }

/-- Repository for the wall-clock-dependence scenario. -/
def repoTime : Repo :=
  { cards := [cardMain], facilities := [facDistrict], card_types := [],
    policies := [polWindow] }

/-- Validation request with service date 5, amount 100. -/
def reqTime : ValidationRequest :=
  { card_number := "123456789012345", facility_code := "FAC01",
    policy_type := "outpatient", total_amount := some 100,
    service_date := some 5 }

/-- A card type with code `TE1`. -/
def ctOne : InsuranceCardType :=
  { id := "CT1", code := "TE1", coverage_percentage := 80 }

/-- An 80% open-ended policy for the calculate-coverage route. -/
def polCalc : CoveragePolicy :=
  { id := "PC", name := "calc", policy_type := "outpatient",
    card_type_id := "CT1", facility_level := "district",
    coverage_percentage := 80, max_amount := none, deductible := some 0,
    effective_from := 0, effective_to := none, is_active := true }

/-- Repository for the calculate-coverage route scenario. -/
def repoCalc : Repo :=
  { cards := [], facilities := [], card_types := [ctOne],
    policies := [polCalc] }

/-- A calculate-coverage request carrying a negative billed amount. -/
def reqNegAmount : CalcRequest :=
  { card_type_code := some "TE1", policy_type := some "outpatient",
    facility_level := some "district", total_amount := some (-100) }

/-! # Theorems -/

/-! ## Properties of the rounding model -/

theorem floor_le_pyRoundInt (x : ℚ) : ⌊x⌋ ≤ pyRoundInt x := by
  unfold pyRoundInt
  dsimp only
  split
  · exact le_refl _
  · split
    · omega
    · split <;> omega

theorem pyRoundInt_le_floor_add_one (x : ℚ) : pyRoundInt x ≤ ⌊x⌋ + 1 := by
  unfold pyRoundInt
  dsimp only
  split
  · omega
  · split
    · omega
    · split <;> omega

theorem pyRoundInt_nonneg {x : ℚ} (hx : 0 ≤ x) : 0 ≤ pyRoundInt x := by
  have h := floor_le_pyRoundInt x
  have h2 : (0 : ℤ) ≤ ⌊x⌋ := Int.floor_nonneg.mpr hx
  omega

theorem pyRoundInt_mono {x y : ℚ} (h : x ≤ y) : pyRoundInt x ≤ pyRoundInt y := by
  have hf : ⌊x⌋ ≤ ⌊y⌋ := Int.floor_le_floor h
  by_cases hlt : ⌊x⌋ < ⌊y⌋
  · have h1 := pyRoundInt_le_floor_add_one x
    have h2 := floor_le_pyRoundInt y
    omega
  · have heq : ⌊x⌋ = ⌊y⌋ := le_antisymm hf (by omega)
    unfold pyRoundInt
    dsimp only
    rw [← heq]
    by_cases h1 : x - ⌊x⌋ < 1/2
    · rw [if_pos h1]
      split
      · exact le_refl _
      · split
        · omega
        · split <;> omega
    · have h2 : ¬ (y - (⌊x⌋ : ℚ) < 1/2) := by
        intro hy
        exact h1 (by linarith)
      rw [if_neg h1, if_neg h2]
      by_cases h3 : 1/2 < x - ⌊x⌋
      · have h4 : 1/2 < y - (⌊x⌋ : ℚ) := by linarith
        rw [if_pos h3, if_pos h4]
      · rw [if_neg h3]
        by_cases h4 : 1/2 < y - (⌊x⌋ : ℚ)
        · rw [if_pos h4]
          split <;> omega
        · rw [if_neg h4]

theorem round2_nonneg {x : ℚ} (hx : 0 ≤ x) : 0 ≤ round2 x := by
  unfold round2
  have h : (0 : ℤ) ≤ pyRoundInt (x * 100) :=
    pyRoundInt_nonneg (mul_nonneg hx (by norm_num))
  positivity

theorem round2_mono {x y : ℚ} (h : x ≤ y) : round2 x ≤ round2 y := by
  unfold round2
  have h1 : pyRoundInt (x * 100) ≤ pyRoundInt (y * 100) :=
    pyRoundInt_mono (mul_le_mul_of_nonneg_right h (by norm_num))
  have h2 : ((pyRoundInt (x * 100) : ℚ)) ≤ (pyRoundInt (y * 100) : ℚ) := by
    exact_mod_cast h1
  linarith

/-! ## Properties of the coverage pipeline -/

theorem calculate_eq_round2_raw (p : CoveragePolicy) (today : Date) (amt : ℚ)
    (h : p.is_applicable none today = true) :
    p.calculate_coverage today amt = round2 (rawCoverage p amt) := by
  unfold CoveragePolicy.calculate_coverage rawCoverage
  rw [h]
  simp

theorem rawCoverage_nonneg (p : CoveragePolicy) (amt : ℚ)
    (h0 : 0 ≤ p.coverage_percentage)
    (hm : ∀ m, p.max_amount = some m → 0 ≤ m) :
    0 ≤ rawCoverage p amt := by
  unfold rawCoverage
  have hb : 0 ≤ max 0 (amt - p.deductible.getD 0) := le_max_left 0 _
  have hp : 0 ≤ max 0 (amt - p.deductible.getD 0) * (p.coverage_percentage / 100) :=
    mul_nonneg hb (div_nonneg h0 (by norm_num))
  cases hmx : p.max_amount with
  | none => simpa using hp
  | some m =>
    dsimp only
    split
    · exact hp
    · exact le_min hp (hm m hmx)

theorem rawCoverage_le (p : CoveragePolicy) (amt : ℚ)
    (h1 : p.coverage_percentage ≤ 100)
    (hd : 0 ≤ p.deductible.getD 0) (ha : 0 ≤ amt) :
    rawCoverage p amt ≤ amt := by
  unfold rawCoverage
  have hb0 : 0 ≤ max 0 (amt - p.deductible.getD 0) := le_max_left 0 _
  have hb : max 0 (amt - p.deductible.getD 0) ≤ amt :=
    max_le ha (by linarith)
  have hr : p.coverage_percentage / 100 ≤ 1 := by linarith
  have hp : max 0 (amt - p.deductible.getD 0) * (p.coverage_percentage / 100) ≤ amt :=
    le_trans (mul_le_of_le_one_right hb0 hr) hb
  cases hmx : p.max_amount with
  | none => simpa using hp
  | some m =>
    dsimp only
    split
    · exact hp
    · exact le_trans (min_le_left _ _) hp

/-! ## Claim C6: card temporal validity -/

/-- C6: `InsuranceCard.is_valid` returns true exactly when the status is
`active` and the date lies in `[valid_from, valid_to]`; the date defaults to
`today` when omitted. -/
theorem C6_is_valid :
    ∀ (c : InsuranceCard) (d today : Date),
      (c.is_valid (some d) today = true ↔
        c.status = "active" ∧ c.valid_from ≤ d ∧ d ≤ c.valid_to) ∧
      c.is_valid none today = c.is_valid (some today) today := by
  intro c d today
  constructor
  · simp [InsuranceCard.is_valid, and_assoc]
  · rfl

/-! ## Claim C5: the applicable-policy filter -/

/-- C5: membership in `find_applicable_policies` is exactly the conjunction of
the three equality filters, the active flag, `effective_from ≤ asOfDate` and
(`effective_to` absent or `≥ asOfDate`); when nothing matches the result is
the empty list, not an error. -/
theorem C5_find_applicable :
    ∀ (table : List CoveragePolicy) (ct pt fl : String) (d today : Date)
      (p : CoveragePolicy),
      (p ∈ CoveragePolicy.find_applicable_policies table ct pt fl (some d) today ↔
        p ∈ table ∧ p.card_type_id = ct ∧ p.policy_type = pt ∧
          p.facility_level = fl ∧ p.is_active = true ∧ p.effective_from ≤ d ∧
          (p.effective_to = none ∨ ∃ e, p.effective_to = some e ∧ d ≤ e)) ∧
      ((∀ q, q ∈ table → applicableFilter ct pt fl d q = false) →
        CoveragePolicy.find_applicable_policies table ct pt fl (some d) today = []) := by
  intro table ct pt fl d today p
  have hiff : applicableFilter ct pt fl d p = true ↔
      (p.card_type_id = ct ∧ p.policy_type = pt ∧ p.facility_level = fl ∧
        p.is_active = true ∧ p.effective_from ≤ d ∧
        (p.effective_to = none ∨ ∃ e, p.effective_to = some e ∧ d ≤ e)) := by
    unfold applicableFilter
    cases hE : p.effective_to with
    | none => simp [and_assoc]
    | some e => simp [and_assoc]
  constructor
  · rw [CoveragePolicy.find_applicable_policies]
    simp only [Option.getD_some]
    rw [List.mem_filter, hiff]
  · intro h
    rw [CoveragePolicy.find_applicable_policies]
    simp only [Option.getD_some]
    refine List.filter_eq_nil_iff.mpr ?_
    intro q hq
    rw [h q hq]
    simp

/-- C5 witness: a policy whose `effective_to` (day 5) lies strictly before the
as-of date (day 10) is filtered out, yielding the empty list. -/
theorem C5_find_applicable_witness :
    CoveragePolicy.find_applicable_policies [pExpired] "CT1" "outpatient"
      "district" (some 10) 0 = [] := by
  refine (C5_find_applicable [pExpired] "CT1" "outpatient" "district" 10 0
    pExpired).2 ?_
  intro q hq
  rw [List.mem_singleton] at hq
  subst hq
  decide

/-! ## Claim C1: the coverage formula -/

/-- C1 counterexample: on a policy whose `max_amount` column holds 0 and a
billed amount of 0.07, the code skips the cap (Python truthiness) and rounds,
returning 0.06, while the claimed formula (cap whenever set, no rounding)
yields 0. -/
theorem C1_counterexample :
    pZeroCap.calculate_coverage 0 (7/100) = 3/50 ∧
    claimedCoverageNoRound pZeroCap (7/100) = 0 ∧
    (3/50 : ℚ) ≠ 0 := by
  refine ⟨?_, ?_, by norm_num⟩
  · simp [CoveragePolicy.calculate_coverage, CoveragePolicy.is_applicable,
      pZeroCap, round2, pyRoundInt]
    norm_num [Int.fract]
  · simp [claimedCoverageNoRound, pZeroCap]
    norm_num

/-- C1 as amended: for a policy applicable at evaluation time, the returned
amount is the deductible/percentage pipeline, capped only when `max_amount`
is set and nonzero, then rounded to 2 decimals half-to-even; the spec's two
worked examples hold as stated. -/
theorem C1_amended :
    (∀ (p : CoveragePolicy) (today : Date) (amt : ℚ),
        p.is_applicable none today = true →
        p.calculate_coverage today amt = round2 (rawCoverage p amt)) ∧
    pDeduct.calculate_coverage 0 1000000 = 720000 ∧
    (1000000 : ℚ) - pDeduct.calculate_coverage 0 1000000 = 280000 ∧
    pCap.calculate_coverage 0 1000000 = 500000 := by
  have hded : pDeduct.calculate_coverage 0 1000000 = 720000 := by
    simp [CoveragePolicy.calculate_coverage, CoveragePolicy.is_applicable,
      pDeduct, round2, pyRoundInt]
    norm_num [Int.fract]
  refine ⟨calculate_eq_round2_raw, hded, by rw [hded]; norm_num, ?_⟩
  simp [CoveragePolicy.calculate_coverage, CoveragePolicy.is_applicable,
    pCap, round2, pyRoundInt]
  norm_num [Int.fract]

/-- C1 witness: the general equation of the amended claim, instantiated on
the deductible-example policy at billed amount 1000000. -/
theorem C1_amended_witness :
    pDeduct.calculate_coverage 0 1000000 = round2 (rawCoverage pDeduct 1000000) :=
  C1_amended.1 pDeduct 0 1000000 (by decide)

/-! ## Claim C3: the rounding mode -/

/-- C3 counterexample: a third decimal digit of 5 does not round away from
zero: on billed amount 0.125 under a 100% policy the code returns 0.12
(half-even), not the 0.13 the spec's half-up rounding yields. -/
theorem C3_counterexample :
    pFull.calculate_coverage 0 (1/8) = 3/25 ∧
    roundHalfUp2 (rawCoverage pFull (1/8)) = 13/100 ∧
    (3/25 : ℚ) ≠ 13/100 := by
  refine ⟨?_, ?_, by norm_num⟩
  · simp [CoveragePolicy.calculate_coverage, CoveragePolicy.is_applicable,
      pFull, round2, pyRoundInt]
    norm_num [Int.fract]
  · simp [roundHalfUp2, rawCoverage, pFull]
    norm_num [Int.fract]

/-- C3 as amended: the returned amount is the exact pre-rounding value
rounded to a multiple of 1/100 at distance at most half a hundredth, a tie
(fractional part exactly 1/2 after scaling by 100) resolving to an even
number of hundredths. -/
theorem C3_amended :
    ∀ (p : CoveragePolicy) (today : Date) (amt : ℚ),
      p.is_applicable none today = true →
      ∃ k : ℤ, p.calculate_coverage today amt = (k : ℚ) / 100 ∧
        |rawCoverage p amt * 100 - k| ≤ 1/2 ∧
        (rawCoverage p amt * 100 - (⌊rawCoverage p amt * 100⌋ : ℚ) = 1/2 →
          k % 2 = 0) := by
  intro p today amt h
  rw [calculate_eq_round2_raw p today amt h]
  set x : ℚ := rawCoverage p amt * 100 with hxdef
  have hf0 : (0 : ℚ) ≤ x - ⌊x⌋ := sub_nonneg.mpr (Int.floor_le x)
  have hf1 : x - (⌊x⌋ : ℚ) < 1 := by
    have := Int.lt_floor_add_one x
    linarith
  refine ⟨pyRoundInt x, rfl, ?_, ?_⟩
  · unfold pyRoundInt
    dsimp only
    split
    · rename_i h1
      rw [abs_of_nonneg hf0]
      linarith
    · rename_i h1
      split
      · rename_i h2
        push_cast
        rw [abs_of_nonpos (by linarith)]
        linarith
      · rename_i h2
        have hx2 : x - (⌊x⌋ : ℚ) = 1/2 := le_antisymm (not_lt.mp h2) (not_lt.mp h1)
        split
        · rw [abs_of_nonneg hf0]
          linarith
        · push_cast
          rw [abs_of_nonpos (by linarith)]
          linarith
  · intro htie
    unfold pyRoundInt
    dsimp only
    rw [htie]
    norm_num
    split
    · assumption
    · omega

/-- C3 witness: the amended rounding characterisation instantiated on the
100% policy at billed amount 0.125. -/
theorem C3_amended_witness :
    ∃ k : ℤ, pFull.calculate_coverage 0 (1/8) = (k : ℚ) / 100 ∧
      |rawCoverage pFull (1/8) * 100 - k| ≤ 1/2 ∧
      (rawCoverage pFull (1/8) * 100 - (⌊rawCoverage pFull (1/8) * 100⌋ : ℚ) = 1/2 →
        k % 2 = 0) :=
  C3_amended pFull 0 (1/8) (by decide)

/-! ## Claim C2: the monetary invariants -/

/-- C2 counterexample: on the positive billed amount 0.006 under a 100%
deductible-free policy, rounding pushes the covered amount to 0.01, which
exceeds the billed amount. -/
theorem C2_counterexample :
    pFull.calculate_coverage 0 (3/500) = 1/100 ∧
    ¬ (pFull.calculate_coverage 0 (3/500) ≤ 3/500) := by
  have h : pFull.calculate_coverage 0 (3/500) = 1/100 := by
    simp [CoveragePolicy.calculate_coverage, CoveragePolicy.is_applicable,
      pFull, round2, pyRoundInt]
    norm_num [Int.fract]
  refine ⟨h, ?_⟩
  rw [h]
  norm_num

/-- C2 as amended: for a policy with percentage in [0,100], nonnegative
deductible and (when set) nonnegative cap, and a nonnegative billed amount
expressible at 2-decimal currency granularity, the covered amount lies in
[0, billed] and covered plus the derived patient payment reconstructs the
billed amount exactly. -/
theorem C2_amended :
    ∀ (p : CoveragePolicy) (today : Date) (amt : ℚ),
      0 ≤ p.coverage_percentage → p.coverage_percentage ≤ 100 →
      0 ≤ p.deductible.getD 0 →
      (∀ m, p.max_amount = some m → 0 ≤ m) →
      0 ≤ amt → round2 amt = amt →
      0 ≤ p.calculate_coverage today amt ∧
      p.calculate_coverage today amt ≤ amt ∧
      p.calculate_coverage today amt + (amt - p.calculate_coverage today amt) = amt := by
  intro p today amt h0 h1 hd hm ha hg
  by_cases happ : p.is_applicable none today = true
  · rw [calculate_eq_round2_raw p today amt happ]
    have hraw0 : 0 ≤ rawCoverage p amt := rawCoverage_nonneg p amt h0 hm
    have hraw1 : rawCoverage p amt ≤ amt := rawCoverage_le p amt h1 hd ha
    refine ⟨round2_nonneg hraw0, ?_, by ring⟩
    calc round2 (rawCoverage p amt) ≤ round2 amt := round2_mono hraw1
      _ = amt := hg
  · rw [Bool.not_eq_true] at happ
    have hz : p.calculate_coverage today amt = 0 := by
      unfold CoveragePolicy.calculate_coverage
      rw [happ]
      simp
    rw [hz]
    exact ⟨le_refl 0, ha, by ring⟩

/-- C2 witness: the amended invariants instantiated on the 100% policy at
billed amount 500000. -/
theorem C2_amended_witness :
    0 ≤ pFull.calculate_coverage 0 500000 ∧
    pFull.calculate_coverage 0 500000 ≤ 500000 ∧
    pFull.calculate_coverage 0 500000 +
      (500000 - pFull.calculate_coverage 0 500000) = 500000 :=
  C2_amended pFull 0 500000 (by norm_num [pFull]) (by norm_num [pFull])
    (by norm_num [pFull]) (by intro m hmm; simp [pFull] at hmm) (by norm_num)
    (by simp [round2, pyRoundInt]
        norm_num [Int.fract])

/-! ## Claim C4: best-policy selection -/

theorem pymaxBy_mem {α : Type} (key : α → ℚ) (c : α) (cs : List α) :
    pymaxBy key c cs ∈ c :: cs := by
  induction cs generalizing c with
  | nil => simp [pymaxBy]
  | cons x xs ih =>
    rw [pymaxBy]
    have h := ih (if key c < key x then x else c)
    rcases List.mem_cons.mp h with h1 | h1
    · rw [h1]
      split
      · simp
      · simp
    · exact List.mem_cons_of_mem _ (List.mem_cons_of_mem _ h1)

theorem pymaxBy_le {α : Type} (key : α → ℚ) (c : α) (cs : List α) :
    ∀ a ∈ c :: cs, key a ≤ key (pymaxBy key c cs) := by
  induction cs generalizing c with
  | nil =>
    intro a ha
    rw [List.mem_singleton] at ha
    subst ha
    simp [pymaxBy]
  | cons x xs ih =>
    intro a ha
    rw [pymaxBy]
    have hcle : key c ≤ key (if key c < key x then x else c) := by
      by_cases h : key c < key x
      · rw [if_pos h]
        exact le_of_lt h
      · rw [if_neg h]
    have hxle : key x ≤ key (if key c < key x then x else c) := by
      by_cases h : key c < key x
      · rw [if_pos h]
      · rw [if_neg h]
        exact not_lt.mp h
    have hrec : key (if key c < key x then x else c) ≤
        key (pymaxBy key (if key c < key x then x else c) xs) :=
      ih _ _ (List.mem_cons_self _ _)
    rcases List.mem_cons.mp ha with h1 | h1
    · subst h1
      exact le_trans hcle hrec
    · rcases List.mem_cons.mp h1 with h2 | h2
      · subst h2
        exact le_trans hxle hrec
      · exact ih _ a (List.mem_cons_of_mem _ h2)

theorem pymaxBy_firstMax {α : Type} (key : α → ℚ) (c : α) (cs : List α) :
    ∃ l1 l2, c :: cs = l1 ++ pymaxBy key c cs :: l2 ∧
      ∀ a ∈ l1, key a < key (pymaxBy key c cs) := by
  induction cs generalizing c with
  | nil => exact ⟨[], [], by simp [pymaxBy], by simp⟩
  | cons x xs ih =>
    rw [pymaxBy]
    by_cases h : key c < key x
    · rw [if_pos h]
      obtain ⟨l1, l2, heq, hlt⟩ := ih x
      refine ⟨c :: l1, l2, ?_, ?_⟩
      · rw [List.cons_append, ← heq]
      · intro a ha
        rcases List.mem_cons.mp ha with h1 | h1
        · subst h1
          exact lt_of_lt_of_le h (pymaxBy_le key x xs x (List.mem_cons_self _ _))
        · exact hlt a h1
    · rw [if_neg h]
      obtain ⟨l1, l2, heq, hlt⟩ := ih c
      cases l1 with
      | nil =>
        rw [List.nil_append] at heq
        obtain ⟨hc, _⟩ := List.cons_eq_cons.mp heq
        refine ⟨[], x :: xs, ?_, by simp⟩
        rw [List.nil_append, ← hc]
      | cons b l1' =>
        rw [List.cons_append] at heq
        obtain ⟨hb, hl⟩ := List.cons_eq_cons.mp heq
        have hcr : key c < key (pymaxBy key c xs) := by
          apply hlt
          rw [hb]
          exact List.mem_cons_self _ _
        refine ⟨c :: x :: l1', l2, ?_, ?_⟩
        · rw [List.cons_append, List.cons_append, ← hl]
        · intro a ha
          rcases List.mem_cons.mp ha with h1 | h1
          · subst h1
            exact hcr
          · rcases List.mem_cons.mp h1 with h2 | h2
            · subst h2
              exact lt_of_le_of_lt (not_lt.mp h) hcr
            · exact hlt a (List.mem_cons_of_mem _ h2)

/-- C4 counterexample: two candidates tie at covered amount 80; the selection
returns the first-listed candidate (policy id "B") although the tied
candidate with the lexicographically smaller id "A" is present. -/
theorem C4_counterexample :
    selectBest [pTieB, pTieA] 0 100 = some ⟨"B", 80, 20⟩ ∧
    (⟨"A", 80, 20⟩ : CoverageCalc) ∈ coverageCalcs [pTieB, pTieA] 0 100 ∧
    listLtB "A".data "B".data = true := by
  have hcalc : ∀ p : CoveragePolicy, p = pTieB ∨ p = pTieA →
      p.calculate_coverage 0 100 = 80 := by
    rintro p (rfl | rfl) <;>
      · simp [CoveragePolicy.calculate_coverage, CoveragePolicy.is_applicable,
          pTieB, pTieA, round2, pyRoundInt]
        norm_num [Int.fract]
  have hB := hcalc pTieB (Or.inl rfl)
  have hA := hcalc pTieA (Or.inr rfl)
  have hidA : pTieA.id = "A" := rfl
  have hidB : pTieB.id = "B" := rfl
  refine ⟨?_, ?_, by decide⟩
  · simp [selectBest, coverageCalcs, pymaxBy, hA, hB, hidA, hidB]
    norm_num
  · simp [coverageCalcs, hA, hB, hidA, hidB]
    norm_num

/-- C4 as amended: on a non-empty candidate list the selection returns a
candidate of maximal covered amount, namely the first candidate in list
order attaining that maximum (so it is deterministic for a fixed candidate
list, but ties are broken by list position, not by smallest policy id). -/
theorem C4_amended :
    ∀ (p : CoveragePolicy) (ps : List CoveragePolicy) (today : Date) (amt : ℚ),
      ∃ best, selectBest (p :: ps) today amt = some best ∧
        best ∈ coverageCalcs (p :: ps) today amt ∧
        (∀ x ∈ coverageCalcs (p :: ps) today amt,
          x.covered_amount ≤ best.covered_amount) ∧
        (∃ l1 l2, coverageCalcs (p :: ps) today amt = l1 ++ best :: l2 ∧
          ∀ x ∈ l1, x.covered_amount < best.covered_amount) := by
  intro p ps today amt
  have hcc : coverageCalcs (p :: ps) today amt =
      { policy_id := p.id,
        covered_amount := p.calculate_coverage today amt,
        patient_payment := amt - p.calculate_coverage today amt } ::
        coverageCalcs ps today amt := by
    simp [coverageCalcs]
  refine ⟨pymaxBy (fun x => x.covered_amount)
    { policy_id := p.id,
      covered_amount := p.calculate_coverage today amt,
      patient_payment := amt - p.calculate_coverage today amt }
    (coverageCalcs ps today amt), ?_, ?_, ?_, ?_⟩
  · rw [selectBest, hcc]
  · rw [hcc]
    exact pymaxBy_mem _ _ _
  · rw [hcc]
    exact pymaxBy_le _ _ _
  · rw [hcc]
    exact pymaxBy_firstMax _ _ _

/-- C4 witness: the amended selection properties instantiated on the tied
candidate list. -/
theorem C4_amended_witness :
    ∃ best, selectBest (pTieB :: [pTieA]) 0 100 = some best ∧
      best ∈ coverageCalcs (pTieB :: [pTieA]) 0 100 ∧
      (∀ x ∈ coverageCalcs (pTieB :: [pTieA]) 0 100,
        x.covered_amount ≤ best.covered_amount) ∧
      (∃ l1 l2, coverageCalcs (pTieB :: [pTieA]) 0 100 = l1 ++ best :: l2 ∧
        ∀ x ∈ l1, x.covered_amount < best.covered_amount) :=
  C4_amended pTieB [pTieA] 0 100

/-! ## Claim C9: initial claim status -/

/-- C9 counterexample: the constructor accepts a caller-supplied initial
status of `paid` — any of the five lifecycle statuses passes validation, not
only `submitted`. -/
theorem C9_counterexample :
    Claim.init ⟨some "inpatient", some "paid", some "X123"⟩ [] 2024 3 =
      .ok ⟨"X123", some "inpatient", "paid"⟩ ∧
    ("paid" : String) ≠ "submitted" := by
  exact ⟨rfl, by decide⟩

/-- C9 as amended: the constructor defaults the status to `submitted` when
none is supplied and otherwise stores the supplied status verbatim, rejecting
only statuses outside the five-element lifecycle list — so a claim can be
created directly in any of the five statuses. -/
theorem C9_amended :
    ∀ (kw : ClaimKwargs) (existing : List String) (year month : Nat),
      (∀ rec, Claim.init kw existing year month = .ok rec →
        rec.status = kw.status.getD "submitted" ∧
        validClaimStatuses.contains rec.status = true) ∧
      (∀ s, kw.status = some s → validClaimStatuses.contains s = false →
        Claim.init kw existing year month = .error "invalid status" ∨
        Claim.init kw existing year month = .error "invalid visit type") := by
  intro kw existing year month
  constructor
  · intro rec hrec
    unfold Claim.init at hrec
    by_cases h1 : kw.visit_type.any (fun v => !(validVisitTypes.contains v))
    · rw [if_pos h1] at hrec
      cases hrec
    · rw [if_neg h1] at hrec
      by_cases h2 : kw.status.any (fun s => !(validClaimStatuses.contains s))
      · rw [if_pos h2] at hrec
        cases hrec
      · rw [if_neg h2] at hrec
        have hrec' := hrec
        rw [Except.ok.injEq] at hrec'
        subst hrec'
        refine ⟨rfl, ?_⟩
        cases hs : kw.status with
        | none => simp [hs, validClaimStatuses]
        | some s =>
          rw [hs] at h2
          simp only [Option.any_some, Bool.not_eq_true'] at h2
          rw [Bool.not_eq_false] at h2
          simpa [hs] using h2
  · intro s hs hcon
    unfold Claim.init
    by_cases h1 : kw.visit_type.any (fun v => !(validVisitTypes.contains v))
    · rw [if_pos h1]
      right
      rfl
    · rw [if_neg h1]
      have h2 : kw.status.any (fun s => !(validClaimStatuses.contains s)) = true := by
        rw [hs]
        simp only [Option.any_some, Bool.not_eq_true']
        exact hcon
      rw [if_pos h2]
      left
      rfl

/-- C9 witness: a status outside the lifecycle list is rejected. -/
theorem C9_amended_witness :
    Claim.init ⟨none, some "bogus", some "C"⟩ [] 2024 3 = .error "invalid status" ∨
    Claim.init ⟨none, some "bogus", some "C"⟩ [] 2024 3 = .error "invalid visit type" :=
  (C9_amended ⟨none, some "bogus", some "C"⟩ [] 2024 3).2 "bogus" rfl (by decide)

/-! ## Claim C8: rejection before lookup -/

/-- C8 counterexample: the calculate-coverage route accepts a billed amount
of -100: it performs the card-type and policy lookups and returns a success
result instead of rejecting before any repository read. -/
theorem C8_counterexample :
    calculate_coverage_route repoCalc reqNegAmount 0 =
      (.ok ⟨⟨"PC", 0, -100⟩, [⟨"PC", 0, -100⟩]⟩,
        [.cardTypeLookup, .policyLookup]) ∧
    [LookupEvent.cardTypeLookup, LookupEvent.policyLookup] ≠ [] := by
  have hcalc : polCalc.calculate_coverage 0 (-100) = 0 := by
    simp [CoveragePolicy.calculate_coverage, CoveragePolicy.is_applicable,
      polCalc, round2, pyRoundInt]
  have hid : polCalc.id = "PC" := rfl
  have hpols : CoveragePolicy.find_applicable_policies [polCalc] "CT1"
      "outpatient" "district" none 0 = [polCalc] := by
    simp [CoveragePolicy.find_applicable_policies, applicableFilter, polCalc]
  refine ⟨?_, by simp⟩
  simp [calculate_coverage_route, repoCalc, reqNegAmount, pyFalsyStr,
    findCardTypeByCode, ctOne, hpols, selectBest, coverageCalcs, pymaxBy,
    hcalc, hid]

/-- C8 as amended: in the validation route a non-numeric or non-positive
amount is rejected by schema validation with no repository read; in the
calculate-coverage route only a non-numeric amount is rejected before any
lookup (a non-positive amount is accepted and processed). -/
theorem C8_amended :
    (∀ (repo : Repo) (req : ValidationRequest) (today : Date),
        req.total_amount = none →
        validate_policy repo req today = (.error .validationError, [])) ∧
    (∀ (repo : Repo) (req : ValidationRequest) (today : Date) (amt : ℚ),
        req.total_amount = some amt → amt ≤ 0 →
        validate_policy repo req today = (.error .validationError, [])) ∧
    (∀ (repo : Repo) (req : CalcRequest) (today : Date),
        req.total_amount = none →
        calculate_coverage_route repo req today = (.error .invalidAmount, [])) := by
  refine ⟨?_, ?_, ?_⟩
  · intro repo req today h
    cases hsd : req.service_date <;> simp [validate_policy, h, hsd]
  · intro repo req today amt h hle
    have hnot : ¬ (0 < amt) := not_lt.mpr hle
    cases hsd : req.service_date with
    | none => simp [validate_policy, h, hsd]
    | some d => simp [validate_policy, h, hsd, hnot]
  · intro repo req today h
    simp [calculate_coverage_route, h]

/-- C8 witness: a validation request with amount -5 is rejected with a
validation error and an empty lookup log. -/
theorem C8_amended_witness :
    validate_policy repoTime
      { card_number := "123456789012345", facility_code := "FAC01",
        policy_type := "outpatient", total_amount := some (-5),
        service_date := some 0 } 0 = (.error .validationError, []) :=
  C8_amended.2.1 repoTime
    { card_number := "123456789012345", facility_code := "FAC01",
      policy_type := "outpatient", total_amount := some (-5),
      service_date := some 0 } 0 (-5) rfl (by norm_num)

/-! ## Claim C10: wall-clock dependence of the covered amount -/

/-- C10: the validation route is not a function of the request alone — the
same request evaluated with wall-clock day 5 versus day 20 returns covered
amounts 80 and 0, because `calculate_coverage` re-checks applicability at
`today` while the applicable list was resolved at the service date; on day 20
the policy still appears in the applicable list with covered amount 0. -/
theorem C10_wall_clock_dependence :
    validate_policy repoTime reqTime 5 =
      (.ok ⟨⟨"PW", 80, 20⟩, [⟨"PW", 80, 20⟩]⟩,
        [.cardLookup, .facilityLookup, .policyLookup]) ∧
    validate_policy repoTime reqTime 20 =
      (.ok ⟨⟨"PW", 0, 100⟩, [⟨"PW", 0, 100⟩]⟩,
        [.cardLookup, .facilityLookup, .policyLookup]) ∧
    (80 : ℚ) ≠ 0 := by
  have hlen : ("123456789012345" : String).length = 15 := rfl
  have hid : polWindow.id = "PW" := rfl
  have hcalc5 : polWindow.calculate_coverage 5 100 = 80 := by
    simp [CoveragePolicy.calculate_coverage, CoveragePolicy.is_applicable,
      polWindow, round2, pyRoundInt]
    norm_num [Int.fract]
  have hcalc20 : polWindow.calculate_coverage 20 100 = 0 := by
    simp [CoveragePolicy.calculate_coverage, CoveragePolicy.is_applicable,
      polWindow]
  have hpols5 : CoveragePolicy.find_applicable_policies [polWindow] "CT1"
      "outpatient" "district" (some 5) 5 = [polWindow] := by
    simp [CoveragePolicy.find_applicable_policies, applicableFilter, polWindow]
  have hpols20 : CoveragePolicy.find_applicable_policies [polWindow] "CT1"
      "outpatient" "district" (some 5) 20 = [polWindow] := by
    simp [CoveragePolicy.find_applicable_policies, applicableFilter, polWindow]
  refine ⟨?_, ?_, by norm_num⟩
  · simp [validate_policy, reqTime, repoTime, hlen, findCardByNumber, cardMain,
      InsuranceCard.is_valid, findFacilityByCode, facDistrict, hpols5,
      selectBest, coverageCalcs, pymaxBy, hcalc5, hid]
    norm_num
  · simp [validate_policy, reqTime, repoTime, hlen, findCardByNumber, cardMain,
      InsuranceCard.is_valid, findFacilityByCode, facDistrict, hpols20,
      selectBest, coverageCalcs, pymaxBy, hcalc20, hid]

/-! ## Claim C7: claim-number generation -/

theorem foldl_mul_add (l : List Nat) (a : Nat) :
    l.foldl (fun a d => a * 10 + d) a = a * 10 ^ l.length + dval l := by
  induction l generalizing a with
  | nil => simp [dval]
  | cons d t ih =>
    rw [List.foldl_cons, ih (a * 10 + d)]
    have hd : dval (d :: t) = d * 10 ^ t.length + dval t := by
      unfold dval
      rw [List.foldl_cons]
      simp only [Nat.zero_mul, Nat.zero_add]
      rw [ih d]
      rfl
    rw [hd]
    rw [List.length_cons, pow_succ]
    ring

theorem dval_cons (d : Nat) (t : List Nat) :
    dval (d :: t) = d * 10 ^ t.length + dval t := by
  unfold dval
  rw [List.foldl_cons]
  simp only [Nat.zero_mul, Nat.zero_add]
  rw [foldl_mul_add]
  rfl

theorem dval_append (u v : List Nat) :
    dval (u ++ v) = dval u * 10 ^ v.length + dval v := by
  unfold dval
  rw [List.foldl_append, foldl_mul_add]
  rfl

theorem dval_replicate_zero (k : Nat) : dval (List.replicate k 0) = 0 := by
  induction k with
  | zero => rfl
  | succ n ih =>
    rw [List.replicate_succ, dval_cons, ih]
    simp

theorem dval_reverse (l : List Nat) : dval l.reverse = Nat.ofDigits 10 l := by
  induction l with
  | nil => simp [dval, Nat.ofDigits]
  | cons d t ih =>
    rw [List.reverse_cons, dval_append, ih, Nat.ofDigits_cons]
    simp [dval_cons, dval]
    ring

theorem dval_lt (l : List Nat) (h : ∀ d ∈ l, d < 10) : dval l < 10 ^ l.length := by
  induction l with
  | nil => simp [dval]
  | cons d t ih =>
    rw [dval_cons]
    have hd : d < 10 := h d (List.mem_cons_self _ _)
    have ht : dval t < 10 ^ t.length := ih (fun x hx => h x (List.mem_cons_of_mem _ hx))
    have : d * 10 ^ t.length + dval t < (d + 1) * 10 ^ t.length := by
      rw [add_mul, one_mul]
      omega
    calc d * 10 ^ t.length + dval t < (d + 1) * 10 ^ t.length := this
      _ ≤ 10 * 10 ^ t.length := by
          apply Nat.mul_le_mul_right
          omega
      _ = 10 ^ (t.length + 1) := by ring
      _ = 10 ^ (d :: t).length := by rw [List.length_cons]

theorem digitChar_toNat_fin : ∀ a : Fin 10, (Nat.digitChar a.1).toNat - 48 = a.1 := by
  decide

theorem digitChar_lt_fin :
    ∀ a b : Fin 10, (Nat.digitChar a.1 < Nat.digitChar b.1) ↔ a.1 < b.1 := by
  decide

theorem digitChar_toNat {a : Nat} (h : a < 10) : (Nat.digitChar a).toNat - 48 = a :=
  digitChar_toNat_fin ⟨a, h⟩

theorem digitChar_lt {a b : Nat} (ha : a < 10) (hb : b < 10) :
    (Nat.digitChar a < Nat.digitChar b) ↔ a < b :=
  digitChar_lt_fin ⟨a, ha⟩ ⟨b, hb⟩

theorem char_lt_irrefl (c : Char) : ¬ (c < c) := lt_irrefl c

theorem char_lt_asymm {c d : Char} (h : c < d) : ¬ (d < c) := lt_asymm h

theorem listLtB_irrefl (l : List Char) : listLtB l l = false := by
  induction l with
  | nil => rfl
  | cons c t ih =>
    rw [listLtB]
    rw [if_neg (char_lt_irrefl c), if_neg (char_lt_irrefl c)]
    exact ih

theorem listLtB_asymm : ∀ (u v : List Char), listLtB u v = true → listLtB v u = false := by
  intro u
  induction u with
  | nil =>
    intro v h
    cases v with
    | nil => exact Bool.noConfusion h
    | cons b bs => rfl
  | cons a as ih =>
    intro v h
    cases v with
    | nil => exact Bool.noConfusion h
    | cons b bs =>
      rw [listLtB] at h
      rw [listLtB]
      by_cases hab : a < b
      · rw [if_neg (char_lt_asymm hab), if_pos hab]
      · rw [if_neg hab] at h
        by_cases hba : b < a
        · rw [if_pos hba] at h
          exact Bool.noConfusion h
        · rw [if_neg hba] at h
          rw [if_neg hba, if_neg hab]
          exact ih bs h

theorem listLtB_append_left : ∀ (p u v : List Char),
    listLtB (p ++ u) (p ++ v) = listLtB u v := by
  intro p
  induction p with
  | nil => intro u v; rfl
  | cons c t ih =>
    intro u v
    rw [List.cons_append, List.cons_append, listLtB]
    rw [if_neg (char_lt_irrefl c), if_neg (char_lt_irrefl c)]
    exact ih u v

theorem listLtB_of_dval_lt : ∀ (u v : List Nat), u.length = v.length →
    (∀ d ∈ u, d < 10) → (∀ d ∈ v, d < 10) → dval u < dval v →
    listLtB (u.map Nat.digitChar) (v.map Nat.digitChar) = true := by
  intro u
  induction u with
  | nil =>
    intro v hlen _ _ hval
    cases v with
    | nil => exact absurd hval (by simp [dval])
    | cons b bs => exact absurd hlen (by simp)
  | cons a as ih =>
    intro v hlen hu hv hval
    cases v with
    | nil => exact absurd hlen (by simp)
    | cons b bs =>
      have hlen2 : as.length = bs.length := by simpa using hlen
      have ha : a < 10 := hu a (List.mem_cons_self _ _)
      have hb : b < 10 := hv b (List.mem_cons_self _ _)
      rw [List.map_cons, List.map_cons, listLtB]
      rcases lt_trichotomy a b with h | h | h
      · rw [if_pos ((digitChar_lt ha hb).mpr h)]
      · subst h
        rw [if_neg (char_lt_irrefl _), if_neg (char_lt_irrefl _)]
        apply ih bs hlen2 (fun x hx => hu x (List.mem_cons_of_mem _ hx))
          (fun x hx => hv x (List.mem_cons_of_mem _ hx))
        rw [dval_cons, dval_cons, hlen2] at hval
        omega
      · exfalso
        rw [dval_cons, dval_cons, hlen2] at hval
        have hbs : dval bs < 10 ^ bs.length :=
          dval_lt bs (fun x hx => hv x (List.mem_cons_of_mem _ hx))
        have hkey : b * 10 ^ bs.length + dval bs < a * 10 ^ bs.length + dval as := by
          have hba : b + 1 ≤ a := h
          calc b * 10 ^ bs.length + dval bs < (b + 1) * 10 ^ bs.length := by
                rw [add_mul, one_mul]
                omega
            _ ≤ a * 10 ^ bs.length := Nat.mul_le_mul_right _ hba
            _ ≤ a * 10 ^ bs.length + dval as := Nat.le_add_right _ _
        omega

theorem decStr_data_pos (n : Nat) (hn : 0 < n) :
    (decStr n).data = (Nat.digits 10 n).reverse.map Nat.digitChar := by
  unfold decStr
  rw [if_neg (by omega)]

theorem decStr_length_pos (n : Nat) (hn : 0 < n) :
    (decStr n).length = (Nat.digits 10 n).length := by
  show (decStr n).data.length = _
  rw [decStr_data_pos n hn]
  simp

theorem digits_len_le (n k : Nat) (h : n < 10 ^ k) :
    (Nat.digits 10 n).length ≤ k := by
  by_cases hn : n = 0
  · simp [hn]
  · rw [Nat.digits_len 10 n (by norm_num) hn]
    have : Nat.log 10 n < k := Nat.log_lt_of_lt_pow hn h
    omega

theorem sixDigits_length (n : Nat) (h : n < 1000000) :
    (sixDigits n).length = 6 := by
  unfold sixDigits
  rw [List.length_append, List.length_replicate, List.length_reverse]
  have : (Nat.digits 10 n).length ≤ 6 := digits_len_le n 6 (by norm_num at h ⊢; omega)
  omega

theorem sixDigits_lt (n : Nat) : ∀ d ∈ sixDigits n, d < 10 := by
  intro d hd
  unfold sixDigits at hd
  rcases List.mem_append.mp hd with h | h
  · rw [List.eq_of_mem_replicate h]
    norm_num
  · exact Nat.digits_lt_base (by norm_num) (List.mem_reverse.mp h)

theorem sixDigits_dval (n : Nat) : dval (sixDigits n) = n := by
  unfold sixDigits
  rw [dval_append, dval_replicate_zero, dval_reverse, Nat.ofDigits_digits]
  simp

theorem zfill6_data (n : Nat) (hn : 0 < n) :
    (zfill 6 (decStr n)).data = (sixDigits n).map Nat.digitChar := by
  unfold zfill
  rw [String.data_append]
  have hmk : (String.mk (List.replicate (6 - (decStr n).length) '0')).data =
      List.replicate (6 - (decStr n).length) '0' := rfl
  rw [hmk, decStr_data_pos n hn, decStr_length_pos n hn]
  unfold sixDigits
  rw [List.map_append, List.map_replicate]
  rfl

theorem parse_digits_aux : ∀ (l : List Nat), (∀ d ∈ l, d < 10) → ∀ (a : Nat),
    (l.map Nat.digitChar).foldl (fun a c => a * 10 + (c.toNat - 48)) a =
      l.foldl (fun a d => a * 10 + d) a := by
  intro l
  induction l with
  | nil => intro _ a; rfl
  | cons d t ih =>
    intro h a
    rw [List.map_cons, List.foldl_cons, List.foldl_cons,
      digitChar_toNat (h d (List.mem_cons_self _ _))]
    exact ih (fun x hx => h x (List.mem_cons_of_mem _ hx)) (a * 10 + d)

theorem mkClaimNumber_data (y m s : Nat) (hs : 0 < s) :
    (mkClaimNumber y m s).data =
      (monthKeyPrefix y m).data ++ (sixDigits s).map Nat.digitChar := by
  unfold mkClaimNumber
  rw [String.data_append, zfill6_data s hs]

theorem lastSixNat_mk (y m s : Nat) (hs : 0 < s) (hlt : s < 1000000) :
    lastSixNat (mkClaimNumber y m s) = s := by
  unfold lastSixNat
  rw [mkClaimNumber_data y m s hs]
  have hlen6 : ((sixDigits s).map Nat.digitChar).length = 6 := by
    rw [List.length_map, sixDigits_length s hlt]
  rw [List.length_append, hlen6]
  have harith : (monthKeyPrefix y m).data.length + 6 - 6 =
      (monthKeyPrefix y m).data.length := by omega
  rw [harith, List.drop_left]
  have := parse_digits_aux (sixDigits s) (sixDigits_lt s) 0
  rw [this]
  exact sixDigits_dval s

theorem likeMatches_mk (y m s : Nat) (hs : 0 < s) :
    likeMatches (monthKeyPrefix y m) (mkClaimNumber y m s) = true := by
  unfold likeMatches
  rw [mkClaimNumber_data y m s hs]
  rw [List.isPrefixOf_iff_prefix]
  exact List.prefix_append _ _

theorem mk_lt_mk (y m : Nat) {s t : Nat} (hs0 : 0 < s) (ht0 : 0 < t)
    (hs : s < 1000000) (ht : t < 1000000) (h : s < t) :
    listLtB (mkClaimNumber y m s).data (mkClaimNumber y m t).data = true := by
  rw [mkClaimNumber_data y m s hs0, mkClaimNumber_data y m t ht0,
    listLtB_append_left]
  apply listLtB_of_dval_lt
  · rw [sixDigits_length s hs, sixDigits_length t ht]
  · exact sixDigits_lt s
  · exact sixDigits_lt t
  · rw [sixDigits_dval, sixDigits_dval]
    exact h

theorem foldl_max_le (l : List Nat) (a : Nat) :
    a ≤ l.foldl Nat.max a ∧ ∀ s ∈ l, s ≤ l.foldl Nat.max a := by
  induction l generalizing a with
  | nil => exact ⟨le_refl a, by simp⟩
  | cons s t ih =>
    rw [List.foldl_cons]
    obtain ⟨h1, h2⟩ := ih (Nat.max a s)
    refine ⟨le_trans (Nat.le_max_left a s) h1, ?_⟩
    intro x hx
    rcases List.mem_cons.mp hx with h | h
    · subst h
      exact le_trans (Nat.le_max_right a x) h1
    · exact h2 x h

theorem foldl_max_lt (l : List Nat) (a B : Nat) (ha : a < B)
    (hl : ∀ s ∈ l, s < B) : l.foldl Nat.max a < B := by
  induction l generalizing a with
  | nil => exact ha
  | cons s t ih =>
    rw [List.foldl_cons]
    exact ih (Nat.max a s)
      (Nat.max_lt.mpr ⟨ha, hl s (List.mem_cons_self _ _)⟩)
      (fun x hx => hl x (List.mem_cons_of_mem _ hx))

theorem strMax_fold_mk (y m : Nat) : ∀ (seqs : List Nat) (a : Nat),
    0 < a → a < 1000000 → (∀ s ∈ seqs, 0 < s ∧ s < 1000000) →
    List.foldl strMaxStep (some (mkClaimNumber y m a))
      (seqs.map (mkClaimNumber y m)) =
      some (mkClaimNumber y m (seqs.foldl Nat.max a)) := by
  intro seqs
  induction seqs with
  | nil => intro a _ _ _; rfl
  | cons s rest ih =>
    intro a ha0 ha1 hall
    obtain ⟨hs0, hs1⟩ := hall s (List.mem_cons_self _ _)
    have htail : ∀ x ∈ rest, 0 < x ∧ x < 1000000 :=
      fun x hx => hall x (List.mem_cons_of_mem _ hx)
    rw [List.map_cons, List.foldl_cons, List.foldl_cons]
    have hstep : strMaxStep (some (mkClaimNumber y m a)) (mkClaimNumber y m s) =
        if listLtB (mkClaimNumber y m a).data (mkClaimNumber y m s).data
        then some (mkClaimNumber y m s) else some (mkClaimNumber y m a) := rfl
    rcases lt_trichotomy a s with h | h | h
    · rw [hstep, if_pos (mk_lt_mk y m ha0 hs0 ha1 hs1 h)]
      have hmax : Nat.max a s = s := Nat.max_eq_right (le_of_lt h)
      rw [hmax]
      exact ih s hs0 hs1 htail
    · subst h
      rw [hstep, if_neg (by rw [listLtB_irrefl]; exact Bool.false_ne_true)]
      have hmax : Nat.max a a = a := Nat.max_self a
      rw [hmax]
      exact ih a ha0 ha1 htail
    · have hlt : listLtB (mkClaimNumber y m a).data (mkClaimNumber y m s).data = false :=
        listLtB_asymm _ _ (mk_lt_mk y m hs0 ha0 hs1 ha1 h)
      rw [hstep, if_neg (by rw [hlt]; exact Bool.false_ne_true)]
      have hmax : Nat.max a s = a := Nat.max_eq_left (le_of_lt h)
      rw [hmax]
      exact ih a ha0 ha1 htail

theorem zfill_length (k : Nat) (s : String) (h : s.length ≤ k) :
    (zfill k s).length = k := by
  unfold zfill
  show (String.mk (List.replicate (k - s.length) '0') ++ s).data.length = k
  rw [String.data_append]
  rw [List.length_append]
  have h1 : (String.mk (List.replicate (k - s.length) '0')).data.length =
      k - s.length := by
    show (List.replicate (k - s.length) '0').length = k - s.length
    rw [List.length_replicate]
  rw [h1]
  have h2 : s.data.length = s.length := rfl
  rw [h2]
  omega

theorem C7_claim_numbers :
    ∀ (year month : Nat) (seqs : List Nat) (others : List String),
      1000 ≤ year → year < 10000 → 1 ≤ month → month ≤ 12 →
      (∀ s ∈ seqs, 1 ≤ s ∧ s < 999999) →
      (∀ o ∈ others, likeMatches (monthKeyPrefix year month) o = false) →
      generate_claim_number (seqs.map (mkClaimNumber year month) ++ others)
          year month = mkClaimNumber year month (newSeqSpec seqs) ∧
      (∀ s ∈ seqs, s < newSeqSpec seqs) ∧
      (∀ s ∈ seqs, listLtB (mkClaimNumber year month s).data
        (mkClaimNumber year month (newSeqSpec seqs)).data = true) ∧
      mkClaimNumber year month (newSeqSpec seqs) ∉
        seqs.map (mkClaimNumber year month) ++ others ∧
      (decStr year ++ zfill 2 (decStr month)).length = 6 ∧
      (zfill 6 (decStr (newSeqSpec seqs))).length = 6 := by
  intro year month seqs others hy1 hy2 hm1 hm2 hseqs hothers
  have hseqs1M : ∀ s ∈ seqs, 0 < s ∧ s < 1000000 :=
    fun s hs => ⟨(hseqs s hs).1, lt_trans (hseqs s hs).2 (by norm_num)⟩
  -- the new sequence number is positive and small
  have hnew0 : 0 < newSeqSpec seqs := by
    cases seqs with
    | nil => norm_num [newSeqSpec]
    | cons s0 rest => simp [newSeqSpec]
  have hnewlt : newSeqSpec seqs < 1000000 := by
    cases seqs with
    | nil => norm_num [newSeqSpec]
    | cons s0 rest =>
      have hb : (s0 :: rest).foldl Nat.max 0 < 999999 :=
        foldl_max_lt _ 0 999999 (by norm_num)
          (fun s hs => (hseqs s hs).2)
      simp only [newSeqSpec]
      omega
  have hgt : ∀ s ∈ seqs, s < newSeqSpec seqs := by
    cases seqs with
    | nil => simp
    | cons s0 rest =>
      intro s hs
      have hle := (foldl_max_le (s0 :: rest) 0).2 s hs
      simp only [newSeqSpec]
      omega
  -- the LIKE filter keeps exactly this month's numbers
  have hfilter : (seqs.map (mkClaimNumber year month) ++ others).filter
      (likeMatches (monthKeyPrefix year month)) =
      seqs.map (mkClaimNumber year month) := by
    rw [List.filter_append]
    have h1 : (seqs.map (mkClaimNumber year month)).filter
        (likeMatches (monthKeyPrefix year month)) =
        seqs.map (mkClaimNumber year month) := by
      rw [List.filter_eq_self]
      intro x hx
      obtain ⟨s, hs, rfl⟩ := List.mem_map.mp hx
      exact likeMatches_mk year month s (hseqs1M s hs).1
    have h2 : others.filter (likeMatches (monthKeyPrefix year month)) = [] := by
      rw [List.filter_eq_nil_iff]
      intro o ho
      simp [hothers o ho]
    rw [h1, h2, List.append_nil]
  -- the generated number
  have hgen : generate_claim_number
      (seqs.map (mkClaimNumber year month) ++ others) year month =
      mkClaimNumber year month (newSeqSpec seqs) := by
    simp only [generate_claim_number]
    rw [hfilter]
    cases seqs with
    | nil => rfl
    | cons s0 rest =>
      obtain ⟨hs00, hs01⟩ := hseqs1M s0 (List.mem_cons_self _ _)
      have htail : ∀ x ∈ rest, 0 < x ∧ x < 1000000 :=
        fun x hx => hseqs1M x (List.mem_cons_of_mem _ hx)
      have hmax : strListMax ((s0 :: rest).map (mkClaimNumber year month)) =
          some (mkClaimNumber year month (rest.foldl Nat.max s0)) := by
        rw [List.map_cons]
        unfold strListMax
        rw [List.foldl_cons]
        have hstep : strMaxStep none (mkClaimNumber year month s0) =
            some (mkClaimNumber year month s0) := rfl
        rw [hstep]
        exact strMax_fold_mk year month rest s0 hs00 hs01 htail
      rw [hmax]
      have hM0 : 0 < rest.foldl Nat.max s0 :=
        lt_of_lt_of_le hs00 (foldl_max_le rest s0).1
      have hMlt : rest.foldl Nat.max s0 < 999999 :=
        foldl_max_lt rest s0 999999 (hseqs s0 (List.mem_cons_self _ _)).2
          (fun x hx => (hseqs x (List.mem_cons_of_mem _ hx)).2)
      show monthKeyPrefix year month ++
          zfill 6 (decStr (lastSixNat
            (mkClaimNumber year month (rest.foldl Nat.max s0)) + 1)) = _
      rw [lastSixNat_mk year month _ hM0 (by omega)]
      have hspec : newSeqSpec (s0 :: rest) = rest.foldl Nat.max s0 + 1 := by
        simp only [newSeqSpec, List.foldl_cons]
        have hz : Nat.max 0 s0 = s0 := Nat.max_eq_right (Nat.zero_le s0)
        rw [hz]
      rw [hspec]
      rfl
  -- year-month prefix has 6 characters
  have hylen : (decStr year).length = 4 := by
    rw [decStr_length_pos year (by omega)]
    rw [Nat.digits_len 10 year (by norm_num) (by omega)]
    have : Nat.log 10 year = 3 :=
      Nat.log_eq_of_pow_le_of_lt_pow (by norm_num; omega) (by norm_num; omega)
    omega
  have hmlen : (zfill 2 (decStr month)).length = 2 := by
    apply zfill_length
    rw [decStr_length_pos month (by omega)]
    exact digits_len_le month 2 (by norm_num; omega)
  have hpre : (decStr year ++ zfill 2 (decStr month)).length = 6 := by
    rw [String.length_append, hylen, hmlen]
  have hseqlen : (zfill 6 (decStr (newSeqSpec seqs))).length = 6 := by
    apply zfill_length
    rw [decStr_length_pos _ hnew0]
    exact digits_len_le _ 6 (by norm_num at hnewlt ⊢; omega)
  refine ⟨hgen, hgt, ?_, ?_, hpre, hseqlen⟩
  · intro s hs
    exact mk_lt_mk year month (hseqs1M s hs).1 hnew0 (hseqs1M s hs).2 hnewlt
      (hgt s hs)
  · intro hmem
    rcases List.mem_append.mp hmem with hmap | hoth
    · obtain ⟨s, hsmem, heq⟩ := List.mem_map.mp hmap
      have hcast := congrArg lastSixNat heq
      rw [lastSixNat_mk year month s (hseqs1M s hsmem).1 (hseqs1M s hsmem).2,
        lastSixNat_mk year month _ hnew0 hnewlt] at hcast
      have := hgt s hsmem
      omega
    · have h1 := hothers _ hoth
      have h2 := likeMatches_mk year month (newSeqSpec seqs) hnew0
      rw [h1] at h2
      exact Bool.noConfusion h2

/-- C7 witness: with three numbers 1, 41, 7 already issued in March 2024 and
one stray number from February, the generator produces the month's number
with sequence one more than the maximum (42), exceeding every issued
sequence number. -/
theorem C7_claim_numbers_witness :
    generate_claim_number
        ([1, 41, 7].map (mkClaimNumber 2024 3) ++ ["BHYT202402000009"]) 2024 3
      = mkClaimNumber 2024 3 (newSeqSpec [1, 41, 7]) ∧
    41 < newSeqSpec [1, 41, 7] := by
  have h := C7_claim_numbers 2024 3 [1, 41, 7] ["BHYT202402000009"]
    (by norm_num) (by norm_num) (by norm_num) (by norm_num)
    (by intro s hs; fin_cases hs <;> norm_num)
    (by
      intro o ho
      rw [List.mem_singleton] at ho
      subst ho
      have hpre : monthKeyPrefix 2024 3 = "BHYT202403" := by
        simp [monthKeyPrefix, decStr, zfill, Nat.digits_def']
        rfl
      rw [hpre]
      decide)
  exact ⟨h.1, h.2.1 41 (by simp)⟩
